import Mathlib

/-!
Shallow embedding of the BusTub storage-engine core: the copy-on-write
`Trie` (src/primer/trie.cpp), the `LRUKReplacer` (src/buffer/lru_k_replacer.cpp),
the `BufferPoolManager` (src/buffer/buffer_pool_manager.cpp, first variant of the
file, which is the one the specification pins as the intended contract), and the
page guards (src/storage/page/page_guard.cpp).

Ordered `std::map` / `std::unordered_map` fields are embedded as association
lists with unique keys; `assocSet` models `operator[]` insert-or-assign
(replace the existing binding, else append) and `assocErase` models `erase`
(on a unique-key map, erasing one binding equals filtering the key out).
Iteration order is never observed by the embedded operations, so the list
order is immaterial to every statement proved below.
-/

namespace Bustub

/-- Lookup in an association list, mirroring `std::map::find`. -/
def assocFind {κ β : Type} [DecidableEq κ] : List (κ × β) → κ → Option β
  | [], _ => none
  | (a, b) :: rest, k => if a = k then some b else assocFind rest k

/-- Insert-or-assign, mirroring `std::map::operator[] = v`: replace the
binding of `k` if present, otherwise append a new binding. -/
def assocSet {κ β : Type} [DecidableEq κ] : List (κ × β) → κ → β → List (κ × β)
  | [], k, v => [(k, v)]
  | (a, b) :: rest, k, v => if a = k then (k, v) :: rest else (a, b) :: assocSet rest k v

/-- Erase a key, mirroring `std::map::erase` on a unique-key map. -/
def assocErase {κ β : Type} [DecidableEq κ] (l : List (κ × β)) (k : κ) : List (κ × β) :=
  l.filter (fun p => p.1 ≠ k)

theorem assocFind_assocSet_self {κ β : Type} [DecidableEq κ] (l : List (κ × β)) (k : κ) (v : β) :
    assocFind (assocSet l k v) k = some v := by
  induction l with
  | nil => simp [assocSet, assocFind]
  | cons p rest ih =>
    obtain ⟨a, b⟩ := p
    by_cases h : a = k
    · simp [assocSet, assocFind, h]
    · simp [assocSet, assocFind, h, ih]

theorem assocFind_assocSet_ne {κ β : Type} [DecidableEq κ] (l : List (κ × β)) (k k' : κ) (v : β)
    (h : k' ≠ k) : assocFind (assocSet l k v) k' = assocFind l k' := by
  induction l with
  | nil => simp [assocSet, assocFind, Ne.symm h]
  | cons p rest ih =>
    obtain ⟨a, b⟩ := p
    by_cases ha : a = k
    · subst ha
      simp [assocSet, assocFind, Ne.symm h]
    · by_cases ha' : a = k'
      · simp [assocSet, assocFind, ha, ha', h]
      · simp [assocSet, assocFind, ha, ha', ih]

theorem assocFind_assocErase_self {κ β : Type} [DecidableEq κ] (l : List (κ × β)) (k : κ) :
    assocFind (assocErase l k) k = none := by
  induction l with
  | nil => rfl
  | cons p rest ih =>
    obtain ⟨a, b⟩ := p
    by_cases h : a = k
    · simpa [assocErase, List.filter_cons, h] using ih
    · simpa [assocErase, List.filter_cons, h, assocFind] using ih

theorem assocFind_assocErase_ne {κ β : Type} [DecidableEq κ] (l : List (κ × β)) (k k' : κ)
    (h : k' ≠ k) : assocFind (assocErase l k) k' = assocFind l k' := by
  induction l with
  | nil => rfl
  | cons p rest ih =>
    obtain ⟨a, b⟩ := p
    by_cases ha : a = k
    · subst ha
      simpa [assocErase, List.filter_cons, assocFind, Ne.symm h] using ih
    · by_cases ha' : a = k'
      · simp [assocErase, List.filter_cons, assocFind, ha, ha', h]
      · simpa [assocErase, List.filter_cons, assocFind, ha, ha'] using ih

theorem assocFind_nil_of_empty {κ β : Type} [DecidableEq κ] (l : List (κ × β)) (hl : l.isEmpty)
    (k : κ) : assocFind l k = none := by
  cases l with
  | nil => rfl
  | cons p rest => simp at hl

/-! ## Persistent trie (src/primer/trie.cpp)

A `TrieNode` holds a byte-keyed children map plus an optional value; a node
whose value is present is the embedding of `TrieNodeWithValue`.  Keys are
lists of byte values.  `Clone` copies a node, which for pure values is the
identity, so the recursive helpers below carry the node by value.  The C++
helpers walk with an explicit `index` into the key; the embedding passes the
remaining key suffix instead. -/

inductive TrieNode (α : Type) : Type where
  | mk : List (Nat × TrieNode α) → Option α → TrieNode α

/-- The children map of a node (`children_`). -/
def TrieNode.children {α : Type} : TrieNode α → List (Nat × TrieNode α)
  | .mk cs _ => cs

/-- The optional value of a node (`value_` of `TrieNodeWithValue`, guarded by
`is_value_node_`). -/
def TrieNode.value {α : Type} : TrieNode α → Option α
  | .mk _ v => v

/-- The walk of `Trie::Get` from a given node: follow one byte at a time,
return `none` when a child is missing, and the node's value at the end of the
key. -/
def getNode {α : Type} : List Nat → TrieNode α → Option α
  | [], node => node.value
  | c :: k, node =>
    match assocFind node.children c with
    | none => none
    | some child => getNode k child

/-- A `Trie` is a handle on a possibly null root node. -/
def Trie (α : Type) : Type := Option (TrieNode α)

/-- The public `Trie::Get`: a null root answers `none`, otherwise walk from
the root. -/
def Trie.Get {α : Type} (t : Trie α) (key : List Nat) : Option α :=
  match t with
  | none => none
  | some root => getNode key root

/-- The recursion of `PutHelper`: at the end of the key build a
`TrieNodeWithValue` keeping the children; otherwise clone the child at the
current byte (or start a fresh node), recurse, and store the rebuilt child
back into the children map. -/
def PutHelper {α : Type} (v : α) : List Nat → TrieNode α → TrieNode α
  | [], node => .mk node.children (some v)
  | c :: k, node =>
    let child :=
      match assocFind node.children c with
      | some existing => existing
      | none => .mk [] none
    .mk (assocSet node.children c (PutHelper v k child)) node.value

/-- The public `Trie::Put`: clone the root (or start a fresh node when the
root is null) and run `PutHelper` from it. -/
def Trie.Put {α : Type} (t : Trie α) (key : List Nat) (v : α) : Trie α :=
  let root :=
    match t with
    | none => TrieNode.mk [] none
    | some r => r
  some (PutHelper v key root)

/-- The recursion of `RemoveHelper`: at the end of the key drop the value,
returning null when no children remain; otherwise rebuild the child at the
current byte, erasing it when the rebuilt subtree is null and pruning the
node itself when it ends up with no children and no value. A missing child
leaves the node untouched. -/
def RemoveHelper {α : Type} : List Nat → TrieNode α → Option (TrieNode α)
  | [], node =>
    if node.children.isEmpty then none
    else some (.mk node.children none)
  | c :: k, node =>
    match assocFind node.children c with
    | none => some node
    | some child =>
      match RemoveHelper k child with
      | none =>
        let cs := assocErase node.children c
        if cs.isEmpty && node.value.isNone then none
        else some (.mk cs node.value)
      | some child' => some (.mk (assocSet node.children c child') node.value)

/-- The public `Trie::Remove`: a null root stays null, otherwise clone the
root and run `RemoveHelper`. -/
def Trie.Remove {α : Type} (t : Trie α) (key : List Nat) : Trie α :=
  match t with
  | none => none
  | some root => RemoveHelper key root

theorem getNode_put {α : Type} (v : α) (key : List Nat) (node : TrieNode α) :
    getNode key (PutHelper v key node) = some v := by
  induction key generalizing node with
  | nil => rfl
  | cons c k ih =>
    cases node with
    | mk cs w =>
      simp only [PutHelper, getNode, TrieNode.children,
        assocFind_assocSet_self]
      exact ih _

/-- Lift of `getNode` to a possibly null node, matching the null-root branch
of `Trie::Get`. -/
def optGet {α : Type} (o : Option (TrieNode α)) (key : List Nat) : Option α :=
  match o with
  | none => none
  | some node => getNode key node

@[simp]
theorem TrieNode.value_mk {α : Type} (cs : List (Nat × TrieNode α)) (v : Option α) :
    (TrieNode.mk cs v).value = v := rfl

@[simp]
theorem TrieNode.children_mk {α : Type} (cs : List (Nat × TrieNode α)) (v : Option α) :
    (TrieNode.mk cs v).children = cs := rfl

@[simp]
theorem getNode_nil {α : Type} (node : TrieNode α) : getNode [] node = node.value := rfl

theorem getNode_cons {α : Type} (c : Nat) (k : List Nat) (cs : List (Nat × TrieNode α))
    (v : Option α) :
    getNode (c :: k) (TrieNode.mk cs v) =
      match assocFind cs c with
      | none => none
      | some child => getNode k child := rfl

@[simp]
theorem optGet_none {α : Type} (key : List Nat) : optGet (none : Option (TrieNode α)) key = none := rfl

@[simp]
theorem optGet_some {α : Type} (node : TrieNode α) (key : List Nat) :
    optGet (some node) key = getNode key node := rfl

theorem RemoveHelper_cons {α : Type} (c : Nat) (k : List Nat)
    (cs : List (Nat × TrieNode α)) (v : Option α) :
    RemoveHelper (c :: k) (TrieNode.mk cs v) =
      match assocFind cs c with
      | none => some (TrieNode.mk cs v)
      | some child =>
        match RemoveHelper k child with
        | none =>
          if (assocErase cs c).isEmpty && v.isNone then none
          else some (TrieNode.mk (assocErase cs c) v)
        | some child' => some (TrieNode.mk (assocSet cs c child') v) := rfl

theorem RemoveHelper_cons_of_found {α : Type} {c : Nat} {k : List Nat}
    {cs : List (Nat × TrieNode α)} {v : Option α} {child : TrieNode α}
    (h : assocFind cs c = some child) :
    RemoveHelper (c :: k) (TrieNode.mk cs v) =
      match RemoveHelper k child with
      | none =>
        if (assocErase cs c).isEmpty && v.isNone then none
        else some (TrieNode.mk (assocErase cs c) v)
      | some child' => some (TrieNode.mk (assocSet cs c child') v) := by
  rw [RemoveHelper_cons, h]

theorem getNode_remove_of_absent {α : Type} (key : List Nat) (node : TrieNode α)
    (h : getNode key node = none) :
    ∀ key', optGet (RemoveHelper key node) key' = getNode key' node := by
  induction key generalizing node with
  | nil =>
    obtain ⟨cs, v⟩ := node
    have hv : v = none := h
    subst hv
    intro key'
    by_cases hcs : cs.isEmpty
    · rw [show RemoveHelper [] (TrieNode.mk cs none) = none by
        simp [RemoveHelper, hcs]]
      cases key' with
      | nil => simp
      | cons d k'' => simp [getNode_cons, assocFind_nil_of_empty cs hcs d]
    · rw [show RemoveHelper [] (TrieNode.mk cs none) = some (TrieNode.mk cs none) by
        simp [RemoveHelper, hcs]]
      simp
  | cons c k ih =>
    obtain ⟨cs, v⟩ := node
    intro key'
    rw [getNode_cons] at h
    cases hfind : assocFind cs c with
    | none =>
      rw [RemoveHelper_cons, hfind]
      simp
    | some child =>
      rw [hfind] at h
      have hch := ih child h
      cases hrem : RemoveHelper k child with
      | none =>
        have hempty : ∀ k'', getNode k'' child = none := by
          intro k''
          have hc := hch k''
          rw [hrem] at hc
          exact (optGet_none k'' ▸ hc).symm
        rw [RemoveHelper_cons_of_found hfind, hrem]
        by_cases hcond : ((assocErase cs c).isEmpty && v.isNone) = true
        · rw [if_pos hcond]
          simp only [Bool.and_eq_true, Option.isNone_iff_eq_none] at hcond
          obtain ⟨hee, hvn⟩ := hcond
          subst hvn
          cases key' with
          | nil => simp
          | cons d k'' =>
            by_cases hdc : d = c
            · subst hdc
              simp [getNode_cons, hfind, hempty]
            · have hfe := assocFind_assocErase_ne cs c d hdc
              rw [assocFind_nil_of_empty _ hee d] at hfe
              simp [getNode_cons, ← hfe]
        · rw [if_neg hcond]
          cases key' with
          | nil => simp
          | cons d k'' =>
            by_cases hdc : d = c
            · subst hdc
              simp [getNode_cons, hfind, assocFind_assocErase_self, hempty]
            · simp only [optGet_some, getNode_cons,
                assocFind_assocErase_ne cs c d hdc]
      | some child' =>
        rw [RemoveHelper_cons_of_found hfind, hrem]
        cases key' with
        | nil => simp
        | cons d k'' =>
          by_cases hdc : d = c
          · subst hdc
            have hc := hch k''
            rw [hrem, optGet_some] at hc
            simp [getNode_cons, hfind, assocFind_assocSet_self, hc]
          · simp only [optGet_some, getNode_cons,
              assocFind_assocSet_ne cs c d _ hdc]

/-- C6: put followed by get returns the inserted value, and the original trie
is an unchanged value, so every lookup on it is unaffected by the put. -/
theorem trie_put_get {α : Type} (t : Trie α) (key : List Nat) (v : α) :
    Trie.Get (Trie.Put t key v) key = some v ∧
      ∀ key' : List Nat, Trie.Get t key' = Trie.Get t key' := by
  refine ⟨?_, fun _ => rfl⟩
  cases t with
  | none => exact getNode_put v key _
  | some root => exact getNode_put v key root

/-- C7: removing a key that holds no value yields a trie that answers every
lookup exactly as the original. -/
theorem trie_remove_absent {α : Type} (t : Trie α) (key : List Nat)
    (h : Trie.Get t key = none) :
    ∀ key' : List Nat, Trie.Get (Trie.Remove t key) key' = Trie.Get t key' := by
  cases t with
  | none => intro key'; rfl
  | some root =>
    intro key'
    exact getNode_remove_of_absent key root h key'

/-- Witness for C7: removing the absent key [1, 3] from the two-entry trie
holding [1, 2] ↦ 10 and [1] ↦ 7 changes no lookup. -/
theorem trie_remove_absent_witness :
    Trie.Get (Trie.Remove (Trie.Put (Trie.Put (none : Trie Nat) [1, 2] 10) [1] 7) [1, 3]) [1, 2]
        = some 10 ∧
      Trie.Get (Trie.Remove (Trie.Put (Trie.Put (none : Trie Nat) [1, 2] 10) [1] 7) [1, 3]) [1]
        = some 7 := by
  constructor
  · rw [trie_remove_absent (Trie.Put (Trie.Put (none : Trie Nat) [1, 2] 10) [1] 7) [1, 3]
      (by decide) [1, 2]]
    decide
  · rw [trie_remove_absent (Trie.Put (Trie.Put (none : Trie Nat) [1, 2] 10) [1] 7) [1, 3]
      (by decide) [1]]
    decide

/-! ## LRU-K replacer (src/buffer/lru_k_replacer.cpp)

`node_store_` is an unordered map from frame id to `LRUKNode`; `fifo_` and
`lru_` are `std::list`s of frame ids, each holding a frame at most once.
`lru_map_` only caches list iterators, so erasing through it equals erasing
the frame's unique occurrence from `lru_`; `std::list::remove` likewise
erases the unique occurrence from `fifo_`.  Both are embedded as `filter`. -/

/-- Modelled from the spec: `LRUKNode` (its header is not part of the given
sources) keeps a bounded history of up to K access timestamps, an evictable
flag, and the class flag `is_lru_` set once the node has reached K accesses. -/
structure LRUKNode : Type where
  k : Nat
  history : List Nat
  is_evictable : Bool
  is_lru : Bool
  deriving Repr, DecidableEq

instance : Inhabited LRUKNode := ⟨⟨0, [], false, false⟩⟩

/-- Modelled from the spec: the node built by `LRUKNode(frame_id, k, ts)`
starts in the fifo class with the single access timestamp `ts`. -/
def LRUKNode.init (k ts : Nat) : LRUKNode := ⟨k, [ts], false, false⟩

/-- Modelled from the spec: `LRUKNode::Access` appends the timestamp to the
bounded history (keeping the most-recent K) and reports `true` exactly when a
fifo-class node reaches K accesses and is promoted to the lru class. -/
def LRUKNode.Access (n : LRUKNode) (ts : Nat) : LRUKNode × Bool :=
  let h := n.history ++ [ts]
  let h := h.drop (h.length - n.k)
  if n.is_lru then ({ n with history := h }, false)
  else if n.k ≤ h.length then ({ n with history := h, is_lru := true }, true)
  else ({ n with history := h }, false)

structure LRUKReplacer : Type where
  node_store : List (Nat × LRUKNode)
  fifo : List Nat
  lru : List Nat
  curr_size : Nat
  replacer_size : Nat
  k : Nat
  current_timestamp : Nat
  deriving Repr, DecidableEq

/-- The scan `for (auto it : list) if (node_store_[it].is_evictable_) break`:
the first frame of the list whose node is evictable.  Frames on the lists are
always present in the store; a missing frame reads as the default node. -/
def firstEvictable (store : List (Nat × LRUKNode)) (l : List Nat) : Option Nat :=
  l.find? (fun f => ((assocFind store f).getD default).is_evictable)

/-- The embedding of `LRUKReplacer::Evict`: return `none` when no frame is
evictable; otherwise scan `fifo_` with `target` initialised to `0`, rescan
`lru_` whenever `target` is still `0`, then drop the chosen frame's node from
its list and the store. -/
def LRUKReplacer.Evict (r : LRUKReplacer) : Option Nat × LRUKReplacer :=
  if r.curr_size = 0 then (none, r)
  else
    let t1 := (firstEvictable r.node_store r.fifo).getD 0
    let target := if t1 = 0 then (firstEvictable r.node_store r.lru).getD t1 else t1
    let node := (assocFind r.node_store target).getD default
    let r1 :=
      if node.is_lru then { r with lru := r.lru.filter (fun x => x ≠ target) }
      else { r with fifo := r.fifo.filter (fun x => x ≠ target) }
    (some target,
      { r1 with node_store := assocErase r1.node_store target,
                curr_size := r1.curr_size - 1 })

/-- The embedding of `LRUKReplacer::RecordAccess`: insert an unknown frame
into the fifo class (evicting first when the replacer is full); for a known
frame, refresh its position in `lru_` when it is already lru-class, append
the timestamp, and promote it from `fifo_` to `lru_` when it reaches K
accesses. -/
def LRUKReplacer.RecordAccess (r : LRUKReplacer) (fid : Nat) : LRUKReplacer :=
  match assocFind r.node_store fid with
  | none =>
    let r1 := if r.curr_size = r.replacer_size then (LRUKReplacer.Evict r).2 else r
    { r1 with fifo := r1.fifo ++ [fid],
              node_store := assocSet r1.node_store fid (LRUKNode.init r1.k r1.current_timestamp),
              current_timestamp := r1.current_timestamp + 1 }
  | some node =>
    let r1 :=
      if node.is_lru then { r with lru := (r.lru.filter (fun x => x ≠ fid)) ++ [fid] }
      else r
    let res := node.Access r1.current_timestamp
    let r2 := { r1 with node_store := assocSet r1.node_store fid res.1,
                        current_timestamp := r1.current_timestamp + 1 }
    if res.2 then
      { r2 with fifo := r2.fifo.filter (fun x => x ≠ fid), lru := r2.lru ++ [fid] }
    else r2

/-- The embedding of `LRUKReplacer::SetEvictable` after its range assertion:
`node_store_[frame_id]` default-inserts a node for an unknown frame, and the
evictable flag toggles together with `curr_size_`. -/
def LRUKReplacer.SetEvictable (r : LRUKReplacer) (fid : Nat) (b : Bool) : LRUKReplacer :=
  let node := (assocFind r.node_store fid).getD default
  let store := assocSet r.node_store fid node
  if node.is_evictable then
    if b then { r with node_store := store }
    else { r with node_store := assocSet store fid { node with is_evictable := false },
                  curr_size := r.curr_size - 1 }
  else
    if b then { r with node_store := assocSet store fid { node with is_evictable := true },
                       curr_size := r.curr_size + 1 }
    else { r with node_store := store }

/-- The embedding of `LRUKReplacer::Remove`: an unknown frame is a silent
no-op; a known frame (asserted evictable — every call below removes an
evictable frame) is dropped from its class list, the store, and the count. -/
def LRUKReplacer.Remove (r : LRUKReplacer) (fid : Nat) : LRUKReplacer :=
  match assocFind r.node_store fid with
  | none => r
  | some node =>
    let r1 :=
      if node.is_lru then { r with lru := r.lru.filter (fun x => x ≠ fid) }
      else { r with fifo := r.fifo.filter (fun x => x ≠ fid) }
    { r1 with node_store := assocErase r1.node_store fid,
              curr_size := r1.curr_size - 1 }

/-- A replacer reached by: access frame 0 once (fifo class), access frame 1
twice with K = 2 (lru class), mark both evictable. -/
def c2Replacer : LRUKReplacer :=
  ((((LRUKReplacer.mk [] [] [] 0 3 2 0).RecordAccess 0).RecordAccess 1).RecordAccess
      1).SetEvictable 0 true |>.SetEvictable 1 true

/-- C2: evict must return the first evictable frame of the fifo list — here
frame 0, which is evictable and fifo-class — yet the code returns the
lru-class frame 1, because the scan uses `target = 0` as its not-found
sentinel and frame id 0 is indistinguishable from it. -/
theorem evict_frame_zero_sentinel_bug :
    (LRUKReplacer.Evict c2Replacer).1 = some 1 ∧
      c2Replacer.fifo = [0] ∧
      ((assocFind c2Replacer.node_store 0).getD default).is_evictable = true ∧
      ((assocFind c2Replacer.node_store 0).getD default).is_lru = false ∧
      ((assocFind c2Replacer.node_store 1).getD default).is_lru = true := by
  decide


/-! ## Buffer pool manager (src/buffer/buffer_pool_manager.cpp, first variant)

The pool owns `pool_size` frames (`pages_`, an array indexed by frame id,
embedded as a total function), a page table from page id to frame id, a free
list, the replacer, and the next page id counter.  Page ids are integers with
the sentinel `INVALID_PAGE_ID = -1`.  The disk layer is abstract; it is
embedded as a page-id-indexed content map plus an event log so that reads,
writes and deallocations are observable.  `pin_count_` is a C++ int that the
operations keep non-negative, embedded as `Nat`.  The per-frame read/write
latch is embedded as a reader count and a writer flag on the frame. -/

def INVALID_PAGE_ID : Int := -1

/-- One frame of the pool: the `Page` object plus its latch state. -/
structure Page : Type where
  page_id : Int
  pin_count : Nat
  is_dirty : Bool
  data : Nat
  rlatch_count : Nat
  wlatched : Bool
  deriving Repr, DecidableEq

instance : Inhabited Page := ⟨⟨INVALID_PAGE_ID, 0, false, 0, 0, false⟩⟩

/-- Observable calls into the abstract disk layer. -/
inductive DiskOp : Type where
  | read : Int → DiskOp
  | write : Int → Nat → DiskOp
  | deallocate : Int → DiskOp
  deriving Repr, DecidableEq

/-- Modelled from the spec: the disk layer consumed by the pool, holding the
on-disk image of every page and the log of calls made to it. -/
structure DiskManager : Type where
  contents : Int → Nat
  events : List DiskOp

/-- Modelled from the spec: `read_page(pid, buf)` hands back the on-disk
image of `pid`. -/
def DiskManager.ReadPage (d : DiskManager) (pid : Int) : Nat × DiskManager :=
  (d.contents pid, { d with events := d.events ++ [DiskOp.read pid] })

/-- Modelled from the spec: `write_page(pid, buf)` replaces the on-disk image
of `pid`. -/
def DiskManager.WritePage (d : DiskManager) (pid : Int) (data : Nat) : DiskManager :=
  { contents := fun q => if q = pid then data else d.contents q,
    events := d.events ++ [DiskOp.write pid data] }

/-- Modelled from the spec: `deallocate_page_id(pid)` releases the id at the
disk layer; the embedding records the call. -/
def DiskManager.DeallocatePage (d : DiskManager) (pid : Int) : DiskManager :=
  { d with events := d.events ++ [DiskOp.deallocate pid] }

structure BufferPoolManager : Type where
  pool_size : Nat
  pages : Nat → Page
  page_table : List (Int × Nat)
  free_list : List Nat
  replacer : LRUKReplacer
  next_page_id : Int
  disk : DiskManager

/-- Update of one slot of the frame array. -/
def updatePages (ps : Nat → Page) (fid : Nat) (p : Page) : Nat → Page :=
  fun n => if n = fid then p else ps n

/-- Modelled from the spec: `GetCleanPage` (declared in the pool's header,
which is not among the given sources) pops a frame from the free list, or
else asks the replacer for a victim, failing when there is none; a dirty
victim is written back and its page-table entry erased; the frame's metadata
is reset with `pin_count = 1`, the dirty flag cleared, and the page id left
for the caller to set. -/
def BufferPoolManager.GetCleanPage (s : BufferPoolManager) :
    Option (Nat × BufferPoolManager) :=
  match s.free_list with
  | fid :: rest =>
    let p := s.pages fid
    let reset := { p with page_id := INVALID_PAGE_ID, pin_count := 1, is_dirty := false }
    some (fid, { s with free_list := rest, pages := updatePages s.pages fid reset })
  | [] =>
    match s.replacer.Evict with
    | (none, _) => none
    | (some fid, r) =>
      let p := s.pages fid
      let s1 := { s with replacer := r }
      let s2 :=
        if p.is_dirty then { s1 with disk := s1.disk.WritePage p.page_id p.data } else s1
      let s3 := { s2 with page_table := assocErase s2.page_table p.page_id }
      let reset := { p with page_id := INVALID_PAGE_ID, pin_count := 1, is_dirty := false }
      some (fid, { s3 with pages := updatePages s3.pages fid reset })

/-- The embedding of `BufferPoolManager::NewPage`: acquire a clean frame,
allocate the next page id, install the mapping, record the access; returns
the new page id and its frame, or `none` when no clean frame is available. -/
def BufferPoolManager.NewPage (s : BufferPoolManager) :
    Option (Int × Nat) × BufferPoolManager :=
  match s.GetCleanPage with
  | none => (none, s)
  | some (fid, s1) =>
    let pid := s1.next_page_id
    let s2 := { s1 with next_page_id := s1.next_page_id + 1 }
    let p := s2.pages fid
    let s3 := { s2 with pages := updatePages s2.pages fid { p with page_id := pid },
                        page_table := assocSet s2.page_table pid fid,
                        replacer := s2.replacer.RecordAccess fid }
    (some (pid, fid), s3)

/-- The embedding of `BufferPoolManager::FetchPage` (first variant): a
resident page has its pin count incremented; a non-resident page gets a clean
frame, the mapping, and its disk image; both paths record the access and mark
the frame non-evictable. -/
def BufferPoolManager.FetchPage (s : BufferPoolManager) (pid : Int) :
    Option Nat × BufferPoolManager :=
  match assocFind s.page_table pid with
  | none =>
    match s.GetCleanPage with
    | none => (none, s)
    | some (fid, s1) =>
      let p := s1.pages fid
      let s2 := { s1 with pages := updatePages s1.pages fid { p with page_id := pid },
                          page_table := assocSet s1.page_table pid fid }
      let rd := s2.disk.ReadPage pid
      let p2 := s2.pages fid
      let s3 := { s2 with pages := updatePages s2.pages fid { p2 with data := rd.1 },
                          disk := rd.2 }
      let s4 := { s3 with replacer := (s3.replacer.RecordAccess fid).SetEvictable fid false }
      (some fid, s4)
  | some fid =>
    let p := s.pages fid
    let s1 := { s with pages := updatePages s.pages fid { p with pin_count := p.pin_count + 1 } }
    let s2 := { s1 with replacer := (s1.replacer.RecordAccess fid).SetEvictable fid false }
    (some fid, s2)

/-- The embedding of `BufferPoolManager::UnpinPage` (first variant): `false`
when the page is not resident or `pin_count_ <= 0`; otherwise decrement the
pin count, mark the frame evictable exactly when the count reaches zero, and
set the dirty flag when `is_dirty` is passed. -/
def BufferPoolManager.UnpinPage (s : BufferPoolManager) (pid : Int) (is_dirty : Bool) :
    Bool × BufferPoolManager :=
  match assocFind s.page_table pid with
  | none => (false, s)
  | some fid =>
    let p := s.pages fid
    if p.pin_count = 0 then (false, s)
    else
      let pc := p.pin_count - 1
      let s1 := { s with pages := updatePages s.pages fid { p with pin_count := pc } }
      let s2 := if pc = 0 then { s1 with replacer := s1.replacer.SetEvictable fid true } else s1
      let s3 :=
        if is_dirty then
          { s2 with pages := updatePages s2.pages fid { (s2.pages fid) with is_dirty := true } }
        else s2
      (true, s3)

/-- The embedding of `BufferPoolManager::FlushPage` (first variant, through
`FlushPageImpl`): when resident, write the frame to disk and clear its dirty
flag; the commented-out replacer call is absent, so the replacer is never
touched. -/
def BufferPoolManager.FlushPage (s : BufferPoolManager) (pid : Int) :
    Bool × BufferPoolManager :=
  match assocFind s.page_table pid with
  | none => (false, s)
  | some fid =>
    let p := s.pages fid
    let s1 := { s with disk := s.disk.WritePage pid p.data }
    let s2 := { s1 with pages := updatePages s1.pages fid { p with is_dirty := false } }
    (true, s2)

/-- The embedding of `BufferPoolManager::DeletePage`: `true` without change
when not resident; `false` when pinned; otherwise erase the mapping, forget
the frame in the replacer, return the frame to the free list, and deallocate
the id at the disk layer. -/
def BufferPoolManager.DeletePage (s : BufferPoolManager) (pid : Int) :
    Bool × BufferPoolManager :=
  match assocFind s.page_table pid with
  | none => (true, s)
  | some fid =>
    let p := s.pages fid
    if 0 < p.pin_count then (false, s)
    else
      let s1 := { s with page_table := assocErase s.page_table pid,
                         replacer := s.replacer.Remove fid,
                         free_list := s.free_list ++ [fid] }
      (true, { s1 with disk := s1.disk.DeallocatePage pid })

/-! ## Page guards (src/storage/page/page_guard.cpp) and guard factories

A `BasicPageGuard` holds the pool, a possibly null `Page*` (embedded as the
optional frame id of the held page) and a dirty bit.  Its `Drop` unpins the
held page and nulls the pointer; on a null pointer it only nulls the pointer.
`ReadPageGuard::Drop` and `WritePageGuard::Drop` in the source call only
`guard_.Drop()` (the write variant under its own mutex, which has no
single-threaded effect); neither touches the frame latch. -/

structure BasicPageGuard : Type where
  page : Option Nat
  is_dirty : Bool
  deriving Repr, DecidableEq

structure ReadPageGuard : Type where
  guard : BasicPageGuard
  deriving Repr, DecidableEq

structure WritePageGuard : Type where
  guard : BasicPageGuard
  deriving Repr, DecidableEq

/-- The embedding of `BasicPageGuard::Drop`: unpin the held page (if any) and
null the page pointer. -/
def BasicPageGuard.Drop (g : BasicPageGuard) (s : BufferPoolManager) :
    BasicPageGuard × BufferPoolManager :=
  match g.page with
  | none => ({ g with page := none }, s)
  | some fid =>
    let pid := (s.pages fid).page_id
    let res := s.UnpinPage pid g.is_dirty
    ({ g with page := none }, res.2)

/-- The embedding of the `BasicPageGuard` move constructor: the new guard
takes the fields and the source is left with no page. -/
def BasicPageGuard.moveFrom (that : BasicPageGuard) : BasicPageGuard × BasicPageGuard :=
  (⟨that.page, that.is_dirty⟩, ⟨none, false⟩)

/-- The embedding of `ReadPageGuard::Drop`: only the inner guard is dropped;
no latch operation occurs. -/
def ReadPageGuard.Drop (g : ReadPageGuard) (s : BufferPoolManager) :
    ReadPageGuard × BufferPoolManager :=
  let res := g.guard.Drop s
  (⟨res.1⟩, res.2)

/-- The embedding of `WritePageGuard::Drop`: only the inner guard is dropped
(under the guard's own mutex); no latch operation occurs. -/
def WritePageGuard.Drop (g : WritePageGuard) (s : BufferPoolManager) :
    WritePageGuard × BufferPoolManager :=
  let res := g.guard.Drop s
  (⟨res.1⟩, res.2)

/-- The embedding of `Page::RLatch` on frame `fid`: one more reader holds the
frame's latch. -/
def BufferPoolManager.RLatch (s : BufferPoolManager) (fid : Nat) : BufferPoolManager :=
  let p := s.pages fid
  { s with pages := updatePages s.pages fid { p with rlatch_count := p.rlatch_count + 1 } }

/-- The embedding of `Page::WLatch` on frame `fid`. -/
def BufferPoolManager.WLatch (s : BufferPoolManager) (fid : Nat) : BufferPoolManager :=
  let p := s.pages fid
  { s with pages := updatePages s.pages fid { p with wlatched := true } }

/-- A dereference of a null `Page*`, the undefined behaviour an embedding can
only surface as an explicit fault. -/
inductive Fault : Type where
  | nullDeref : Fault
  deriving Repr, DecidableEq

/-- The embedding of `BufferPoolManager::FetchPageBasic` (first variant):
wrap whatever `FetchPage` returned — possibly null — without touching it. -/
def BufferPoolManager.FetchPageBasic (s : BufferPoolManager) (pid : Int) :
    BasicPageGuard × BufferPoolManager :=
  let res := s.FetchPage pid
  (⟨res.1, false⟩, res.2)

/-- The embedding of `BufferPoolManager::FetchPageRead` (first variant): the
source calls `page->RLatch()` on the result of `FetchPage` with no null
check, so a failed fetch dereferences a null pointer. -/
def BufferPoolManager.FetchPageRead (s : BufferPoolManager) (pid : Int) :
    Except Fault (ReadPageGuard × BufferPoolManager) :=
  match s.FetchPage pid with
  | (none, _) => Except.error Fault.nullDeref
  | (some fid, s1) => Except.ok (⟨⟨some fid, false⟩⟩, s1.RLatch fid)

/-- The embedding of `BufferPoolManager::FetchPageWrite` (first variant),
with the same missing null check before `page->WLatch()`. -/
def BufferPoolManager.FetchPageWrite (s : BufferPoolManager) (pid : Int) :
    Except Fault (WritePageGuard × BufferPoolManager) :=
  match s.FetchPage pid with
  | (none, _) => Except.error Fault.nullDeref
  | (some fid, s1) => Except.ok (⟨⟨some fid, false⟩⟩, s1.WLatch fid)

/-- The embedding of `BufferPoolManager::NewPageGuarded` (first variant):
wrap whatever `NewPage` returned — possibly null — without touching it. -/
def BufferPoolManager.NewPageGuarded (s : BufferPoolManager) :
    (Option Int × BasicPageGuard) × BufferPoolManager :=
  match s.NewPage with
  | (none, s1) => ((none, ⟨none, false⟩), s1)
  | (some (pid, fid), s1) => ((some pid, ⟨some fid, false⟩), s1)

/-! ## Supporting lemmas for the buffer-pool theorems -/

theorem updatePages_self (ps : Nat → Page) (fid : Nat) (p : Page) :
    updatePages ps fid p fid = p := by
  simp [updatePages]

theorem updatePages_ne (ps : Nat → Page) (fid n : Nat) (p : Page) (h : n ≠ fid) :
    updatePages ps fid p n = ps n := by
  simp [updatePages, h]

/-- The evictable flag the replacer holds for a frame (`false` for a frame it
does not track). -/
def isEvictableFlag (r : LRUKReplacer) (fid : Nat) : Bool :=
  ((assocFind r.node_store fid).getD default).is_evictable

theorem isEvictableFlag_SetEvictable_self (r : LRUKReplacer) (fid : Nat) (b : Bool) :
    isEvictableFlag (r.SetEvictable fid b) fid = b := by
  unfold isEvictableFlag LRUKReplacer.SetEvictable
  by_cases hn : ((assocFind r.node_store fid).getD default).is_evictable <;>
    cases b <;>
    simp [hn, assocFind_assocSet_self]

theorem GetCleanPage_resets_frame (s : BufferPoolManager) (fid : Nat)
    (s1 : BufferPoolManager) (h : s.GetCleanPage = some (fid, s1)) :
    (s1.pages fid).pin_count = 1 ∧ (s1.pages fid).is_dirty = false := by
  unfold BufferPoolManager.GetCleanPage at h
  cases hfl : s.free_list with
  | cons f rest =>
    rw [hfl] at h
    simp only [Option.some.injEq, Prod.mk.injEq] at h
    obtain ⟨hf, hs⟩ := h
    subst hf
    subst hs
    simp [updatePages_self]
  | nil =>
    rw [hfl] at h
    cases hev : s.replacer.Evict with
    | mk o r =>
      rw [hev] at h
      cases o with
      | none => simp at h
      | some vf =>
        simp only [Option.some.injEq, Prod.mk.injEq] at h
        obtain ⟨hf, hs⟩ := h
        subst hf
        subst hs
        simp [updatePages_self]

theorem FetchPage_warm_eq {s : BufferPoolManager} {pid : Int} {fid : Nat}
    (h : assocFind s.page_table pid = some fid) :
    (s.FetchPage pid).1 = some fid ∧
      (s.FetchPage pid).2.pages =
        updatePages s.pages fid
          { s.pages fid with pin_count := (s.pages fid).pin_count + 1 } ∧
      (s.FetchPage pid).2.replacer =
        (s.replacer.RecordAccess fid).SetEvictable fid false := by
  unfold BufferPoolManager.FetchPage
  rw [h]
  exact ⟨rfl, rfl, rfl⟩

theorem FetchPage_cold_eq {s : BufferPoolManager} {pid : Int} {fid : Nat}
    {s1 : BufferPoolManager} (h : assocFind s.page_table pid = none)
    (hg : s.GetCleanPage = some (fid, s1)) :
    (s.FetchPage pid).1 = some fid ∧
      ((s.FetchPage pid).2.pages fid).pin_count = (s1.pages fid).pin_count ∧
      (s.FetchPage pid).2.replacer =
        (s1.replacer.RecordAccess fid).SetEvictable fid false := by
  unfold BufferPoolManager.FetchPage
  rw [h, hg]
  refine ⟨rfl, ?_, rfl⟩
  simp [updatePages]

theorem FetchPage_cold_none {s : BufferPoolManager} {pid : Int}
    (h : assocFind s.page_table pid = none) (hg : s.GetCleanPage = none) :
    s.FetchPage pid = (none, s) := by
  unfold BufferPoolManager.FetchPage
  rw [h, hg]

/-- C1: a warm fetch returns the resident frame with its pin count one higher
than before; a cold fetch that obtains a clean frame returns it with pin
count 1; both leave the frame marked non-evictable in the replacer. -/
theorem FetchPage_pin_semantics (s : BufferPoolManager) (pid : Int) :
    (∀ fid, assocFind s.page_table pid = some fid →
      (s.FetchPage pid).1 = some fid ∧
        ((s.FetchPage pid).2.pages fid).pin_count = (s.pages fid).pin_count + 1 ∧
        isEvictableFlag (s.FetchPage pid).2.replacer fid = false) ∧
    (∀ fid, assocFind s.page_table pid = none →
      (s.FetchPage pid).1 = some fid →
      ((s.FetchPage pid).2.pages fid).pin_count = 1 ∧
        isEvictableFlag (s.FetchPage pid).2.replacer fid = false) := by
  constructor
  · intro fid h
    obtain ⟨h1, h2, h3⟩ := FetchPage_warm_eq h
    refine ⟨h1, ?_, ?_⟩
    · rw [h2, updatePages_self]
    · rw [h3, isEvictableFlag_SetEvictable_self]
  · intro fid h hres
    cases hg : s.GetCleanPage with
    | none =>
      rw [FetchPage_cold_none h hg] at hres
      exact absurd hres (by simp)
    | some pr =>
      obtain ⟨f, s1⟩ := pr
      obtain ⟨h1, h2, h3⟩ := FetchPage_cold_eq h hg
      rw [h1] at hres
      have hf : f = fid := by exact Option.some.inj hres
      subst hf
      refine ⟨?_, ?_⟩
      · rw [h2, (GetCleanPage_resets_frame s f s1 hg).1]
      · rw [h3, isEvictableFlag_SetEvictable_self]

/-- C3: unpin of a non-resident page or of a page with pin count zero is a
rejected no-op; otherwise the pin count drops by one, the dirty flag is ORed
with the argument, and the frame is marked evictable exactly when the new pin
count is zero. -/
theorem UnpinPage_meets_spec (s : BufferPoolManager) (pid : Int) (d : Bool) :
    (assocFind s.page_table pid = none → s.UnpinPage pid d = (false, s)) ∧
    (∀ fid, assocFind s.page_table pid = some fid → (s.pages fid).pin_count = 0 →
      s.UnpinPage pid d = (false, s)) ∧
    (∀ fid, assocFind s.page_table pid = some fid → (s.pages fid).pin_count ≠ 0 →
      (s.UnpinPage pid d).1 = true ∧
        ((s.UnpinPage pid d).2.pages fid).pin_count = (s.pages fid).pin_count - 1 ∧
        ((s.UnpinPage pid d).2.pages fid).is_dirty = ((s.pages fid).is_dirty || d) ∧
        ((s.pages fid).pin_count - 1 = 0 →
          isEvictableFlag (s.UnpinPage pid d).2.replacer fid = true) ∧
        ((s.pages fid).pin_count - 1 ≠ 0 →
          (s.UnpinPage pid d).2.replacer = s.replacer)) := by
  refine ⟨?_, ?_, ?_⟩
  · intro h
    unfold BufferPoolManager.UnpinPage
    rw [h]
  · intro fid h h0
    unfold BufferPoolManager.UnpinPage
    rw [h]
    simp [h0]
  · intro fid h hne
    unfold BufferPoolManager.UnpinPage
    rw [h]
    by_cases hpc : (s.pages fid).pin_count - 1 = 0 <;> cases d <;>
      simp [hne, hpc, updatePages_self, isEvictableFlag_SetEvictable_self]

/-- C4: flush answers residency — `true` exactly when the page is resident;
when resident it writes the frame image to disk and clears the dirty flag;
the replacer is untouched in every case. -/
theorem FlushPage_meets_spec (s : BufferPoolManager) (pid : Int) :
    ((s.FlushPage pid).1 = (assocFind s.page_table pid).isSome) ∧
      ((s.FlushPage pid).2.replacer = s.replacer) ∧
      (∀ fid, assocFind s.page_table pid = some fid →
        ((s.FlushPage pid).2.pages fid).is_dirty = false ∧
          (s.FlushPage pid).2.disk.events =
            s.disk.events ++ [DiskOp.write pid (s.pages fid).data]) := by
  cases hfind : assocFind s.page_table pid with
  | none =>
    unfold BufferPoolManager.FlushPage
    rw [hfind]
    refine ⟨rfl, rfl, ?_⟩
    intro fid hf
    simp at hf
  | some fid0 =>
    unfold BufferPoolManager.FlushPage
    rw [hfind]
    refine ⟨rfl, rfl, ?_⟩
    intro fid hf
    have hf0 : fid0 = fid := Option.some.inj hf
    subst hf0
    exact ⟨by simp [updatePages_self], by simp [DiskManager.WritePage]⟩

theorem Remove_forgets (r : LRUKReplacer) (fid : Nat) :
    assocFind (r.Remove fid).node_store fid = none := by
  unfold LRUKReplacer.Remove
  cases hf : assocFind r.node_store fid with
  | none => simp [hf]
  | some node =>
    by_cases hl : node.is_lru <;> simp [hf, hl, assocFind_assocErase_self]

/-- C8: delete of a non-resident page is `true` with no change; of a pinned
page, `false`; otherwise it erases the page-table mapping, appends the frame
to the free list, removes the frame from the replacer, records the
deallocation at the disk layer, and returns `true`. -/
theorem DeletePage_meets_spec (s : BufferPoolManager) (pid : Int) :
    (assocFind s.page_table pid = none → s.DeletePage pid = (true, s)) ∧
    (∀ fid, assocFind s.page_table pid = some fid → (s.pages fid).pin_count ≠ 0 →
      s.DeletePage pid = (false, s)) ∧
    (∀ fid, assocFind s.page_table pid = some fid → (s.pages fid).pin_count = 0 →
      (s.DeletePage pid).1 = true ∧
        (s.DeletePage pid).2.page_table = assocErase s.page_table pid ∧
        assocFind (s.DeletePage pid).2.page_table pid = none ∧
        (s.DeletePage pid).2.free_list = s.free_list ++ [fid] ∧
        (s.DeletePage pid).2.replacer = s.replacer.Remove fid ∧
        assocFind (s.DeletePage pid).2.replacer.node_store fid = none ∧
        (s.DeletePage pid).2.disk.events = s.disk.events ++ [DiskOp.deallocate pid]) := by
  refine ⟨?_, ?_, ?_⟩
  · intro h
    unfold BufferPoolManager.DeletePage
    rw [h]
  · intro fid h hne
    unfold BufferPoolManager.DeletePage
    rw [h]
    simp [Nat.pos_of_ne_zero hne]
  · intro fid h h0
    unfold BufferPoolManager.DeletePage
    rw [h]
    simp [h0, DiskManager.DeallocatePage, Remove_forgets, assocFind_assocErase_self]

/-- C10: whenever unpin or delete reports failure, the returned manager state
is exactly the input state. -/
theorem false_return_preserves_state (s : BufferPoolManager) (pid : Int) (d : Bool) :
    (∀ s', s.UnpinPage pid d = (false, s') → s' = s) ∧
    (∀ s', s.DeletePage pid = (false, s') → s' = s) := by
  constructor
  · intro s' h
    unfold BufferPoolManager.UnpinPage at h
    cases hfind : assocFind s.page_table pid with
    | none =>
      rw [hfind] at h
      exact (Prod.mk.injEq _ _ _ _ ▸ h).2.symm
    | some fid =>
      rw [hfind] at h
      by_cases h0 : (s.pages fid).pin_count = 0
      · simp only [h0, if_pos rfl] at h
        exact (Prod.mk.injEq _ _ _ _ ▸ h).2.symm
      · simp [h0] at h
  · intro s' h
    unfold BufferPoolManager.DeletePage at h
    cases hfind : assocFind s.page_table pid with
    | none =>
      rw [hfind] at h
      simp at h
    | some fid =>
      rw [hfind] at h
      by_cases h0 : 0 < (s.pages fid).pin_count
      · simp only [h0, if_pos rfl] at h
        exact (Prod.mk.injEq _ _ _ _ ▸ h).2.symm
      · simp [h0] at h

/-! ## Concrete states used by the witnesses -/

/-- A two-frame pool: frame 0 holds page 7 (pinned once, dirty, data 42),
frame 1 is free; the replacer tracks frame 0 as fifo-class, non-evictable. -/
def sampleBPM : BufferPoolManager :=
  ⟨2, fun n => if n = 0 then ⟨7, 1, true, 42, 0, false⟩ else default,
   [(7, 0)], [1], ⟨[(0, ⟨2, [0], false, false⟩)], [0], [], 0, 2, 2, 1⟩, 8,
   ⟨fun _ => 5, []⟩⟩

/-- Like `sampleBPM` but page 7 is unpinned and clean, and its frame is
evictable. -/
def sampleBPM2 : BufferPoolManager :=
  ⟨2, fun n => if n = 0 then ⟨7, 0, false, 42, 0, false⟩ else default,
   [(7, 0)], [1], ⟨[(0, ⟨2, [0], true, false⟩)], [0], [], 1, 2, 2, 1⟩, 8,
   ⟨fun _ => 5, []⟩⟩

/-- Witness for C1: on `sampleBPM`, the warm fetch of page 7 raises frame 0's
pin count from 1 to 2, the cold fetch of page 9 hands out frame 1 with pin
count 1, and both frames end non-evictable. -/
theorem FetchPage_pin_semantics_witness :
    ((sampleBPM.FetchPage 7).2.pages 0).pin_count = 2 ∧
      isEvictableFlag (sampleBPM.FetchPage 7).2.replacer 0 = false ∧
      ((sampleBPM.FetchPage 9).2.pages 1).pin_count = 1 ∧
      isEvictableFlag (sampleBPM.FetchPage 9).2.replacer 1 = false := by
  have hw := (FetchPage_pin_semantics sampleBPM 7).1 0 rfl
  have hc := (FetchPage_pin_semantics sampleBPM 9).2 1 rfl rfl
  exact ⟨by rw [hw.2.1]; rfl, hw.2.2, hc.1, hc.2⟩

/-- Witness for C3: on `sampleBPM`, unpinning page 7 with `is_dirty = true`
succeeds, drops frame 0's pin count to zero, keeps the dirty flag set, and
marks the frame evictable. -/
theorem UnpinPage_meets_spec_witness :
    (sampleBPM.UnpinPage 7 true).1 = true ∧
      ((sampleBPM.UnpinPage 7 true).2.pages 0).pin_count = 0 ∧
      ((sampleBPM.UnpinPage 7 true).2.pages 0).is_dirty = true ∧
      isEvictableFlag (sampleBPM.UnpinPage 7 true).2.replacer 0 = true := by
  have h := (UnpinPage_meets_spec sampleBPM 7 true).2.2 0 rfl (by decide)
  exact ⟨h.1, by rw [h.2.1]; rfl, by rw [h.2.2.1]; rfl, h.2.2.2.1 (by decide)⟩

/-- Witness for C4: on `sampleBPM`, flushing resident page 7 returns `true`,
clears frame 0's dirty flag, emits exactly one disk write of its data 42, and
leaves the replacer as it was. -/
theorem FlushPage_meets_spec_witness :
    (sampleBPM.FlushPage 7).1 = true ∧
      ((sampleBPM.FlushPage 7).2.pages 0).is_dirty = false ∧
      (sampleBPM.FlushPage 7).2.disk.events = [DiskOp.write 7 42] ∧
      (sampleBPM.FlushPage 7).2.replacer = sampleBPM.replacer := by
  have h := FlushPage_meets_spec sampleBPM 7
  refine ⟨by rw [h.1]; rfl, (h.2.2 0 rfl).1, ?_, h.2.1⟩
  rw [(h.2.2 0 rfl).2]
  rfl

/-- Witness for C8: on `sampleBPM2`, deleting the unpinned page 7 returns
`true`, empties the page table, appends frame 0 to the free list, forgets
frame 0 in the replacer, and deallocates page id 7 at the disk layer. -/
theorem DeletePage_meets_spec_witness :
    (sampleBPM2.DeletePage 7).1 = true ∧
      assocFind (sampleBPM2.DeletePage 7).2.page_table 7 = none ∧
      (sampleBPM2.DeletePage 7).2.free_list = [1, 0] ∧
      assocFind (sampleBPM2.DeletePage 7).2.replacer.node_store 0 = none ∧
      (sampleBPM2.DeletePage 7).2.disk.events = [DiskOp.deallocate 7] := by
  have h := (DeletePage_meets_spec sampleBPM2 7).2.2 0 rfl rfl
  refine ⟨h.1, h.2.2.1, ?_, h.2.2.2.2.2.1, ?_⟩
  · rw [h.2.2.2.1]
    rfl
  · rw [h.2.2.2.2.2.2]
    rfl

/-- Witness for C10: the rejected unpin of the non-resident page 99 and the
rejected delete of the pinned page 7 both leave `sampleBPM` unchanged. -/
theorem false_return_preserves_state_witness :
    (sampleBPM.UnpinPage 99 false).2 = sampleBPM ∧
      (sampleBPM.DeletePage 7).2 = sampleBPM := by
  constructor
  · exact (false_return_preserves_state sampleBPM 99 false).1
      (sampleBPM.UnpinPage 99 false).2 rfl
  · exact (false_return_preserves_state sampleBPM 7 false).2
      (sampleBPM.DeletePage 7).2 rfl

/-- A pool whose frame 0 holds page 3, pinned once, with one read latch
held — the situation of a live `ReadPageGuard` over frame 0. -/
def c5BPM : BufferPoolManager :=
  ⟨2, fun n => if n = 0 then ⟨3, 1, false, 0, 1, false⟩ else default,
   [(3, 0)], [1], ⟨[(0, ⟨2, [0], false, false⟩)], [0], [], 0, 2, 2, 1⟩, 4,
   ⟨fun _ => 0, []⟩⟩

/-- C5: dropping an owning `ReadPageGuard` must release the frame's read
latch before unpinning, but the code's `Drop` only calls the inner guard:
the unpin happens (pin count 0) while the reader count stays 1.  The
moved-from half of the claim does hold: a guard with no page dropped on the
same state is a complete no-op. -/
theorem ReadPageGuard_Drop_leaks_latch :
    (((ReadPageGuard.mk ⟨some 0, false⟩).Drop c5BPM).2.pages 0).rlatch_count = 1 ∧
      (((ReadPageGuard.mk ⟨some 0, false⟩).Drop c5BPM).2.pages 0).pin_count = 0 ∧
      ((ReadPageGuard.mk ⟨some 0, false⟩).Drop c5BPM).1.guard.page = none ∧
      (ReadPageGuard.mk ⟨none, false⟩).Drop c5BPM = (⟨⟨none, false⟩⟩, c5BPM) :=
  ⟨rfl, rfl, rfl, rfl⟩

/-- A one-frame pool whose only frame is pinned: no clean frame can be
obtained, so `FetchPage` of an absent page returns null. -/
def exhaustedBPM : BufferPoolManager :=
  ⟨1, fun _ => ⟨0, 1, false, 0, 0, false⟩,
   [(0, 0)], [], ⟨[(0, ⟨2, [0], false, false⟩)], [0], [], 0, 1, 2, 1⟩, 1,
   ⟨fun _ => 0, []⟩⟩

/-- C9: with every frame pinned, `FetchPage` surfaces exhaustion as null, but
`FetchPageRead` and `FetchPageWrite` latch the returned `Page*` without a
null check, so their error branch dereferences a null pointer instead of
returning a failure value. -/
theorem FetchPageRead_null_deref :
    exhaustedBPM.FetchPageRead 5 = Except.error Fault.nullDeref ∧
      exhaustedBPM.FetchPageWrite 5 = Except.error Fault.nullDeref ∧
      (exhaustedBPM.FetchPage 5).1 = none :=
  ⟨rfl, rfl, rfl⟩

end Bustub
